import Mathlib

set_option maxRecDepth 4000

/-!
Shallow embedding of the xsig package (src/xsig/annot.py, signature.py,
io.py).  Python dicts are modelled as insertion-ordered association lists,
floats as rationals, and fallible operations return Except.  File contents
(the annotation table, the GMT lines, the XML gene-set entries) are taken
as already-parsed values; the parsing libraries (pandas.read_table,
xml.etree) are external collaborators per the spec.
-/

/-- Error values corresponding to the Python exceptions the code can raise:
KeyError, IndexError and ValueError. -/
inductive Err where
  | keyError (k : String)
  | indexError
  | valueError (msg : String)
deriving DecidableEq

/-- Python dict assignment d[k] = v: replace the value at an existing key in
place, append a fresh key at the end. -/
def dictInsert {α : Type} : List (String × α) → String → α → List (String × α)
  | [], k, v => [(k, v)]
  | p :: ps, k, v => if p.1 = k then (k, v) :: ps else p :: dictInsert ps k v

/-- Python dict lookup d[k]: the value at the first entry carrying the key. -/
def dictLookup {α : Type} : List (String × α) → String → Option α
  | [], _ => none
  | p :: ps, k => if p.1 = k then some p.2 else dictLookup ps k

/-- Python dict(pairs): successive insertion, so a later pair with the same
key overwrites the value of an earlier one (last write wins). -/
def buildDict {α : Type} (ps : List (String × α)) : List (String × α) :=
  ps.foldl (fun d p => dictInsert d p.1 p.2) []

/-- Value attached to the last pair carrying a given key: the value that
survives dict construction when keys collide. -/
def lastVal {α : Type} : List (String × α) → String → Option α
  | [], _ => none
  | p :: ps, k => match lastVal ps k with
      | some v => some v
      | none => if p.1 = k then some p.2 else none

/-- Helper for pySplit: accumulates the current token (reversed). -/
def splitCharAux (sep : Char) : List Char → List Char → List (List Char)
  | [], cur => [cur.reverse]
  | c :: cs, cur => if c = sep then cur.reverse :: splitCharAux sep cs []
                    else splitCharAux sep cs (c :: cur)

/-- Python str.split(sep): always yields at least one token and keeps empty
tokens (so a trailing separator yields a trailing empty token). -/
def pySplit (s : String) (sep : Char) : List String :=
  (splitCharAux sep s.data []).map String.mk

/-- List version of the startswith test. -/
def isPrefixL : List Char → List Char → Bool
  | [], _ => true
  | _ :: _, [] => false
  | a :: as, b :: bs => a = b && isPrefixL as bs

/-- Python s.startswith(p). -/
def pyStartsWith (s p : String) : Bool := isPrefixL p.data s.data

/-- Whitespace characters stripped by Python str.strip(). -/
def isWS (c : Char) : Bool := c = ' ' || c = '\t' || c = '\n' || c = '\r'

/-- Python str.strip(): remove leading and trailing whitespace. -/
def pyStrip (s : String) : String :=
  String.mk (((s.data.dropWhile isWS).reverse.dropWhile isWS).reverse)

/-- xsig.signature.GeneSignature: the gene set is stored, like the pandas
Series built from dict(zip(gid, w)), as an ordered map from gene to weight,
together with the bias and the free-text info. -/
structure GeneSignature where
  gset : List (String × ℚ)
  bias : ℚ
  info : String
deriving DecidableEq

/-- The w argument of GeneSignature.__init__: None, a Python list, or a
scalar constant. -/
inductive Weights where
  | noweights
  | wlist (w : List ℚ)
  | scalar (c : ℚ)

/-- GeneSignature.__init__(gid, w, b, info).  With w = None the weights are
np.ones; a one-element list or a scalar is broadcast with ndarray.fill; a
list matching the gene count is applied positionally; any other list length
raises ValueError at construction time.  dict(zip(gid, ...)) collapses
duplicate genes (last value wins). -/
def GeneSignature.make (gid : List String) (w : Weights) (b : Option ℚ)
    (info : String) : Except Err GeneSignature :=
  let bias := b.getD 0
  match w with
  | .noweights =>
      .ok ⟨buildDict (gid.zip (List.replicate gid.length (1 : ℚ))), bias, info⟩
  | .wlist ws =>
      if ws.length = 1 then
        .ok ⟨buildDict (gid.zip (List.replicate gid.length (ws.headD 0))), bias, info⟩
      else if ws.length = gid.length then
        .ok ⟨buildDict (gid.zip ws), bias, info⟩
      else
        .error (.valueError "length of weights does not match the length of the gene list")
  | .scalar c =>
      .ok ⟨buildDict (gid.zip (List.replicate gid.length c)), bias, info⟩

/-- GeneSignature(gid, info=url) as called by the loaders: default weights
(np.ones), default bias; this construction cannot fail. -/
def mkDefaultSig (gid : List String) (info : String) : GeneSignature :=
  ⟨buildDict (gid.zip (List.replicate gid.length (1 : ℚ))), 0, info⟩

/-- GeneSignature.genes(): the index of the stored series, i.e. the gene
identifiers in key order. -/
def GeneSignature.genes (s : GeneSignature) : List String := s.gset.map Prod.fst

/-- GeneSignature.remap(old_to_new): the method body in the source consists
of the docstring only, so the call returns None and the record is untouched.
The pair returned here is (Python return value, the record after the call). -/
def GeneSignature.remap (s : GeneSignature) (old_to_new : List (String × String)) :
    Option (List String) × GeneSignature :=
  (none, s)

/-- The expression argument X of GSS.average: a pandas Series (one labelled
sample) or DataFrame (a list of labelled rows, one per sample). -/
inductive ExprInput where
  | series (x : List (String × ℚ))
  | frame (rows : List (List (String × ℚ)))

/-- Result of GSS.average: a scalar for a Series input, one value per sample
for a DataFrame input. -/
inductive Score where
  | one (v : ℚ)
  | many (vs : List ℚ)
deriving DecidableEq

/-- X[genes]: select the expression values of the given genes from one row;
a gene absent from the row is a KeyError. -/
def selectVals (row : List (String × ℚ)) : List String → Except Err (List ℚ)
  | [] => .ok []
  | g :: gs => match dictLookup row g with
      | none => .error (.keyError g)
      | some v => match selectVals row gs with
          | .error e => .error e
          | .ok vs => .ok (v :: vs)

/-- X[gs.genes()].dot(gs.gset) on one row: the selected values paired with
the signature's weights, summed. -/
def dotRow (gs : GeneSignature) (row : List (String × ℚ)) : Except Err ℚ :=
  match selectVals row gs.genes with
  | .error e => .error e
  | .ok vs => .ok (List.zipWith (fun a b => a * b) vs (gs.gset.map Prod.snd)).sum

/-- X[genes].mean() on one row: sum of the selected values divided by the
number of selected genes. -/
def meanRow (genes : List String) (row : List (String × ℚ)) : Except Err ℚ :=
  match selectVals row genes with
  | .error e => .error e
  | .ok vs => .ok (vs.sum / (genes.length : ℚ))

/-- Row-wise application over a DataFrame (vectorized per-sample scores). -/
def mapRows (f : List (String × ℚ) → Except Err ℚ) :
    List (List (String × ℚ)) → Except Err (List ℚ)
  | [] => .ok []
  | r :: rs => match f r with
      | .error e => .error e
      | .ok v => match mapRows f rs with
          | .error e => .error e
          | .ok vs => .ok (v :: vs)

/-- gs.gset.sum(): the sum of all weights of the signature. -/
def gsetSum (gs : GeneSignature) : ℚ := (gs.gset.map Prod.snd).sum

/-- GSS.average(gs, X, weighted): weighted gives the dot product with the
signature weights divided by the weight sum; unweighted gives the arithmetic
mean over the signature's genes (per sample for a DataFrame). -/
def GSS.average (gs : GeneSignature) (X : ExprInput) (weighted : Bool) :
    Except Err Score :=
  if weighted then
    match X with
    | .series x => match dotRow gs x with
        | .error e => .error e
        | .ok d => .ok (.one (d / gsetSum gs))
    | .frame rows => match mapRows (dotRow gs) rows with
        | .error e => .error e
        | .ok ds => .ok (.many (ds.map (fun d => d / gsetSum gs)))
  else
    match X with
    | .series x => match meanRow gs.genes x with
        | .error e => .error e
        | .ok m => .ok (.one m)
    | .frame rows => match mapRows (meanRow gs.genes) rows with
        | .error e => .error e
        | .ok ms => .ok (.many ms)

/-- One row of the annotation table, in the read_from_table column order
[EntrezID, Symbol, Symbol_alt, Chr_pos, Synonyms, Title], each kept as
text.  The missing-value sentinel handling of pandas is immaterial to the
operations embedded here, so fields stay plain strings. -/
structure Row where
  EntrezID : String
  Symbol : String
  Symbol_alt : String
  Chr_pos : String
  Synonyms : String
  Title : String
deriving DecidableEq

/-- The xsig.annot annotation class: version tag, the parsed table, and the
reversed index dict(zip(Symbol, EntrezID)). -/
structure Annot where
  version : String
  data : List Row
  gene_to_id : List (String × String)
deriving DecidableEq

/-- read_from_table: store the parsed rows, set the version, build the
reversed index (dict construction, so a repeated symbol keeps the
last-written identifier). -/
def Annot.read_from_table (rows : List Row) (ver : String) : Annot :=
  { version := ver, data := rows,
    gene_to_id := buildDict (rows.map (fun r => (r.Symbol, r.EntrezID))) }

/-- pandas Symbol[id]: the row at the first index label equal to id. -/
def findRowById : List Row → String → Option Row
  | [], _ => none
  | r :: rs, i => if r.EntrezID = i then some r else findRowById rs i

/-- id_from_symbol: exact lookup in the reversed index, KeyError if absent. -/
def Annot.id_from_symbol (a : Annot) (gene : String) : Except Err String :=
  match dictLookup a.gene_to_id gene with
  | some i => .ok i
  | none => .error (.keyError gene)

/-- gene_from_id: the Symbol column at the given identifier label. -/
def Annot.gene_from_id (a : Annot) (i : String) : Except Err String :=
  match findRowById a.data i with
  | some r => .ok r.Symbol
  | none => .error (.keyError i)

/-- save: writes the table into the keyed store under "annot_" + version
(underscore separator, io mode append). -/
def Annot.save (a : Annot) (store : List (String × List Row)) :
    List (String × List Row) :=
  dictInsert store ("annot_" ++ a.version) a.data

/-- load: reads the table from the keyed store under "annot-" + version
(hyphen separator), sets the version and rebuilds the reversed index;
an absent key is a lookup failure. -/
def Annot.load (store : List (String × List Row)) (ver : String) :
    Except Err Annot :=
  match dictLookup store ("annot-" ++ ver) with
  | none => .error (.keyError ("annot-" ++ ver))
  | some rows =>
      .ok { version := ver, data := rows,
            gene_to_id := buildDict (rows.map (fun r => (r.Symbol, r.EntrezID))) }

/-- Last-written identifier for a symbol: the EntrezID of the last row
whose Symbol equals s (the value kept by the reverse-index collapse). -/
def lastIdForSymbol (rows : List Row) (s : String) : Option String :=
  lastVal (rows.map (fun r => (r.Symbol, r.EntrezID))) s

/-- The mapping produced by a loader: signature key to GeneSignature. -/
abbrev SigDB := List (String × GeneSignature)

/-- An XML GENESET element, as its attribute dictionary. -/
abbrev Entry := List (String × String)

/-- The provenance URL template of load_xml_msigdb. -/
def xmlUrl (stdName : String) : String :=
  "http://www.broadinstitute.ors/gsea/msigdb/geneset_page.jsp?geneSetName=" ++ stdName

/-- The loop of load_xml_msigdb over the GENESET elements, carrying the
accumulated (db, discarded) pair.  Attribute access sig.attrib[...] raises
KeyError when the attribute is absent, in the source's access order. -/
def loadXmlAux : List Entry → SigDB × List String → Except Err (SigDB × List String)
  | [], acc => .ok acc
  | e :: rest, (db, disc) =>
    match dictLookup e "ORGANISM" with
    | none => .error (.keyError "ORGANISM")
    | some org =>
      if org ≠ "Homo sapiens" then
        match dictLookup e "SYSTEMATIC_NAME" with
        | none => .error (.keyError "SYSTEMATIC_NAME")
        | some sn => loadXmlAux rest (db, disc ++ [sn])
      else
        match dictLookup e "MEMBERS_EZID" with
        | none => .error (.keyError "MEMBERS_EZID")
        | some members =>
          match dictLookup e "STANDARD_NAME" with
          | none => .error (.keyError "STANDARD_NAME")
          | some stdName =>
            match dictLookup e "CATEGORY_CODE" with
            | none => .error (.keyError "CATEGORY_CODE")
            | some cat =>
              match dictLookup e "SYSTEMATIC_NAME" with
              | none => .error (.keyError "SYSTEMATIC_NAME")
              | some sn =>
                loadXmlAux rest
                  (dictInsert db (cat ++ "_" ++ sn)
                    (mkDefaultSig (pySplit members ',') (xmlUrl stdName)), disc)

/-- load_xml_msigdb on the list of GENESET elements of the parsed file. -/
def load_xml_msigdb (entries : List Entry) : Except Err (SigDB × List String) :=
  loadXmlAux entries ([], [])

/-- The key an XML entry would be stored under, when the two attributes that
compose it are present. -/
def xmlKey (e : Entry) : Option String :=
  match dictLookup e "CATEGORY_CODE" with
  | none => none
  | some cat =>
      match dictLookup e "SYSTEMATIC_NAME" with
      | none => none
      | some sn => some (cat ++ "_" ++ sn)

/-- The list comprehension [annot.id_from_symbol(g) for g in syms] inside
try/except KeyError: none models the KeyError escaping the comprehension
on the first unresolvable symbol. -/
def resolveAll (a : Annot) : List String → Option (List String)
  | [] => some []
  | g :: gs => match dictLookup a.gene_to_id g with
      | none => none
      | some i => match resolveAll a gs with
          | none => none
          | some is => some (i :: is)

/-- The loop of load_gmt_genesigdb over the lines of the GMT file.  Each
line is split on tabs; tokens[1] raises IndexError on a line with fewer
than two fields; a non-Human organism marker discards the line; the source
then executes tokens[-1] = tokens[1].strip() (overwriting the last token
with the stripped second field) before resolving tokens[2:]; a KeyError
during resolution discards the line. -/
def loadGmtAux (a : Annot) : List String → SigDB × List String → Except Err (SigDB × List String)
  | [], acc => .ok acc
  | line :: rest, (db, disc) =>
    let tokens := pySplit line '\t'
    match tokens.get? 1 with
    | none => .error .indexError
    | some t1 =>
      if ¬ pyStartsWith t1 "Human" then
        loadGmtAux a rest (db, disc ++ [tokens.headD ""])
      else
        let key := "GS_" ++ tokens.headD ""
        let url := "http://compbio.dfci.harvard.edu/genesigdb/publicationSearch.jsp?searchQuery="
                     ++ tokens.headD ""
        let tokens2 := tokens.set (tokens.length - 1) (pyStrip t1)
        match resolveAll a (tokens2.drop 2) with
        | none => loadGmtAux a rest (db, disc ++ [tokens.headD ""])
        | some gid => loadGmtAux a rest (dictInsert db key (mkDefaultSig gid url), disc)

/-- load_gmt_genesigdb on the list of lines of the file (each line still
carrying its trailing newline, as Python file iteration yields them). -/
def load_gmt_genesigdb (a : Annot) (lines : List String) :
    Except Err (SigDB × List String) :=
  loadGmtAux a lines ([], [])

/-- Boolean success test for an Except result. -/
def okB {α : Type} : Except Err α → Bool
  | .ok _ => true
  | .error _ => false

/-- The rows of an expression input: a Series is a single row. -/
abbrev rowsOf : ExprInput → List (List (String × ℚ))
  | .series x => [x]
  | .frame rows => rows

/-- All genes of the signature are present in the row. -/
abbrev coversRow (row : List (String × ℚ)) (gs : GeneSignature) : Prop :=
  ∀ g ∈ gs.genes, (dictLookup row g).isSome

/-- All genes of the signature are present in every sample of X. -/
abbrev covers (X : ExprInput) (gs : GeneSignature) : Prop :=
  ∀ r ∈ rowsOf X, coversRow r gs

/-- Right-biased option choice, mirroring the match used by lastVal. -/
def orElseO {α : Type} (o : Option α) (y : Option α) : Option α :=
  match o with
  | some v => some v
  | none => y

/-! Lemmas about the dict model. -/

theorem lastVal_cons {α : Type} (p : String × α) (ps : List (String × α)) (k : String) :
    lastVal (p :: ps) k = orElseO (lastVal ps k) (if p.1 = k then some p.2 else none) := rfl

theorem dictLookup_dictInsert_self {α : Type} (d : List (String × α)) (k : String) (v : α) :
    dictLookup (dictInsert d k v) k = some v := by
  induction d with
  | nil => simp [dictInsert, dictLookup]
  | cons p ps ih =>
      by_cases h : p.1 = k
      · simp [dictInsert, h, dictLookup]
      · simp [dictInsert, h, dictLookup, ih]

theorem dictLookup_dictInsert_ne {α : Type} (d : List (String × α)) (k k' : String) (v : α)
    (h : k' ≠ k) : dictLookup (dictInsert d k v) k' = dictLookup d k' := by
  have h2 : ¬ (k = k') := fun hh => h hh.symm
  induction d with
  | nil => simp [dictInsert, dictLookup, h2]
  | cons p ps ih =>
      by_cases hp : p.1 = k
      · subst hp
        have h3 : ¬ (p.1 = k') := h2
        simp [dictInsert, dictLookup, h2, h3]
      · simp only [dictInsert, if_neg hp]
        by_cases hp2 : p.1 = k'
        · simp [dictLookup, hp2]
        · simp [dictLookup, hp2, ih]

theorem foldl_dictInsert_lookup {α : Type} (l : List (String × α)) (d : List (String × α))
    (k : String) :
    dictLookup (l.foldl (fun d p => dictInsert d p.1 p.2) d) k =
      orElseO (lastVal l k) (dictLookup d k) := by
  induction l generalizing d with
  | nil => simp [lastVal, orElseO]
  | cons p ps ih =>
      rw [List.foldl_cons, ih, lastVal_cons]
      by_cases hpk : p.1 = k
      · subst hpk
        rw [dictLookup_dictInsert_self]
        cases hps : lastVal ps p.1 <;> simp [orElseO]
      · rw [dictLookup_dictInsert_ne _ _ _ _ (fun hh => hpk hh.symm)]
        cases hps : lastVal ps k <;> simp [orElseO, hpk]

theorem buildDict_lookup {α : Type} (l : List (String × α)) (k : String) :
    dictLookup (buildDict l) k = lastVal l k := by
  rw [buildDict, foldl_dictInsert_lookup]
  cases h : lastVal l k <;> simp [orElseO, dictLookup]

theorem lastVal_isSome_iff {α : Type} (l : List (String × α)) (k : String) :
    (lastVal l k).isSome ↔ k ∈ l.map Prod.fst := by
  induction l with
  | nil => simp [lastVal]
  | cons p ps ih =>
      rw [lastVal_cons]
      cases hps : lastVal ps k
      · rw [hps] at ih
        by_cases hpk : p.1 = k
        · simp [orElseO, hpk]
        · have hpk2 : ¬ (k = p.1) := fun hh => hpk hh.symm
          simp [orElseO, hpk, hpk2, ← ih]
      · rw [hps] at ih
        simp [orElseO, ← ih]

theorem lastVal_eq_some_mem {α : Type} (l : List (String × α)) (k : String) (v : α)
    (h : lastVal l k = some v) : ∃ p, p ∈ l ∧ p.1 = k ∧ p.2 = v := by
  induction l with
  | nil => simp [lastVal] at h
  | cons p ps ih =>
      rw [lastVal_cons] at h
      cases hps : lastVal ps k
      · rw [hps] at h
        by_cases hpk : p.1 = k
        · simp only [orElseO, hpk, if_pos rfl] at h
          exact ⟨p, by simp, hpk, by injection h⟩
        · simp [orElseO, hpk] at h
      · rw [hps] at h
        simp only [orElseO] at h
        obtain ⟨q, hq, hqk, hqv⟩ := ih (hps.trans h)
        exact ⟨q, by simp [hq], hqk, hqv⟩

theorem lastVal_nodup {α : Type} (l : List (String × α)) (p : String × α)
    (hnd : (l.map Prod.fst).Nodup) (hp : p ∈ l) : lastVal l p.1 = some p.2 := by
  induction l with
  | nil => simp at hp
  | cons q qs ih =>
      rw [List.map_cons, List.nodup_cons] at hnd
      rcases List.mem_cons.mp hp with rfl | hmem
      · have hnone : lastVal qs p.1 = none := by
          cases hq : lastVal qs p.1 with
          | none => rfl
          | some v =>
              exact absurd ((lastVal_isSome_iff qs p.1).mp (by simp [hq])) hnd.1
        rw [lastVal_cons, hnone]
        simp [orElseO]
      · rw [lastVal_cons, ih hnd.2 hmem]
        simp [orElseO]

theorem findRowById_nodup (rows : List Row) (r : Row) (hr : r ∈ rows)
    (hnd : (rows.map Row.EntrezID).Nodup) : findRowById rows r.EntrezID = some r := by
  induction rows with
  | nil => simp at hr
  | cons q qs ih =>
      rw [List.map_cons, List.nodup_cons] at hnd
      rcases List.mem_cons.mp hr with rfl | hmem
      · simp [findRowById]
      · have hq : q.EntrezID ≠ r.EntrezID := by
          intro hh
          exact hnd.1 (hh ▸ List.mem_map_of_mem Row.EntrezID hmem)
        simp [findRowById, hq, ih hmem hnd.2]

/-- Claim C4: for an annotation built by read_from_table with unique identifiers,
gene_from_id recovers the row's symbol and id_from_symbol maps that symbol
back to the last-written identifier carrying it; when no other row shares
the symbol, the round trip id_from_symbol(gene_from_id(x)) gives back x. -/
theorem annot_id_symbol_roundtrip (rows : List Row) (ver : String) (r : Row)
    (hr : r ∈ rows) (huniq : (rows.map Row.EntrezID).Nodup) :
    (Annot.read_from_table rows ver).gene_from_id r.EntrezID = .ok r.Symbol ∧
    (∃ y, lastIdForSymbol rows r.Symbol = some y ∧
       (Annot.read_from_table rows ver).id_from_symbol r.Symbol = .ok y) ∧
    ((∀ r2 ∈ rows, r2.Symbol = r.Symbol → r2 = r) →
       (Annot.read_from_table rows ver).id_from_symbol r.Symbol = .ok r.EntrezID) := by
  have hlook : dictLookup (Annot.read_from_table rows ver).gene_to_id r.Symbol =
      lastIdForSymbol rows r.Symbol := by
    rw [Annot.read_from_table, buildDict_lookup]
    rfl
  have hmemkey : r.Symbol ∈ (rows.map (fun rr => (rr.Symbol, rr.EntrezID))).map Prod.fst := by
    rw [List.map_map]
    exact List.mem_map_of_mem _ hr
  have hsome : (lastIdForSymbol rows r.Symbol).isSome := by
    rw [lastIdForSymbol]
    exact (lastVal_isSome_iff _ _).mpr hmemkey
  obtain ⟨y, hy⟩ := Option.isSome_iff_exists.mp hsome
  refine ⟨?_, ⟨y, hy, ?_⟩, ?_⟩
  · rw [Annot.gene_from_id]
    simp only [Annot.read_from_table]
    rw [findRowById_nodup rows r hr huniq]
  · rw [Annot.id_from_symbol, hlook, hy]
  · intro huniqsym
    obtain ⟨p, hpmem, hpk, hpv⟩ := lastVal_eq_some_mem _ _ _ hy
    obtain ⟨r2, hr2, hpr2⟩ := List.mem_map.mp hpmem
    have hr2sym : r2.Symbol = r.Symbol := by rw [← hpk, ← hpr2]
    have : r2 = r := huniqsym r2 hr2 hr2sym
    subst this
    have hyid : y = r2.EntrezID := by rw [← hpv, ← hpr2]
    rw [Annot.id_from_symbol, hlook, hy, hyid]

/-- Witness for annot_id_symbol_roundtrip on a one-row table. -/
theorem annot_id_symbol_roundtrip_witness :
    (Annot.read_from_table [⟨"1", "A", "", "", "", ""⟩] "v").gene_from_id "1" = .ok "A" ∧
    (Annot.read_from_table [⟨"1", "A", "", "", "", ""⟩] "v").id_from_symbol "A" = .ok "1" := by
  have h := annot_id_symbol_roundtrip [⟨"1", "A", "", "", "", ""⟩] "v"
    ⟨"1", "A", "", "", "", ""⟩ (by simp) (by simp)
  exact ⟨h.1, h.2.2 (by decide)⟩

/-- Claim C9: Annot.save stores the table under the underscore key "annot_" + v
while Annot.load looks it up under the hyphen key "annot-" + v; the two keys
always differ, so (when the store held no stale "annot-" entry) a table
saved under version v is not found by load at the same version. -/
theorem annot_save_load_key_mismatch (a : Annot) (store : List (String × List Row))
    (h : dictLookup store ("annot-" ++ a.version) = none) :
    ("annot_" ++ a.version) ≠ ("annot-" ++ a.version) ∧
    dictLookup (a.save store) ("annot_" ++ a.version) = some a.data ∧
    Annot.load (a.save store) a.version = .error (.keyError ("annot-" ++ a.version)) := by
  have hne : ("annot_" ++ a.version) ≠ ("annot-" ++ a.version) := by
    intro heq
    have hd := congrArg String.data heq
    rw [String.data_append, String.data_append] at hd
    exact absurd (List.append_cancel_right hd) (by decide)
  refine ⟨hne, ?_, ?_⟩
  · rw [Annot.save, dictLookup_dictInsert_self]
  · rw [Annot.load, Annot.save,
      dictLookup_dictInsert_ne _ _ _ _ (fun hh => hne hh.symm), h]

/-- Witness for annot_save_load_key_mismatch at version "1" and an empty
store. -/
theorem annot_save_load_key_mismatch_witness :
    ("annot_" ++ "1") ≠ ("annot-" ++ "1") ∧
    dictLookup ((Annot.read_from_table [] "1").save []) ("annot_" ++ "1") = some [] ∧
    Annot.load ((Annot.read_from_table [] "1").save []) "1"
      = .error (.keyError ("annot-" ++ "1")) :=
  annot_save_load_key_mismatch (Annot.read_from_table [] "1") [] rfl

/-- Claim C10: GeneSignature.remap returns None and leaves the gene set, the bias
and the info of the record unchanged: the operation has no implemented
behavior. -/
theorem genesignature_remap_noop (s : GeneSignature) (m : List (String × String)) :
    (s.remap m).1 = none ∧ (s.remap m).2.gset = s.gset ∧
    (s.remap m).2.bias = s.bias ∧ (s.remap m).2.info = s.info :=
  ⟨rfl, rfl, rfl, rfl⟩

/-- Claim C1 failing input: on the line "SIG1\tHuman-derived\tGENE_A\tGENE_B\n"
with GENE_A resolving to "100" and GENE_B to "200", the code executes
tokens[-1] = tokens[1].strip(), replacing the last gene symbol GENE_B with
the organism field "Human-derived" before resolution; the lookup of
"Human-derived" raises KeyError, so the signature is discarded: the result
is an empty mapping with "SIG1" in the discard list, not the key "GS_SIG1"
with genes {"100", "200"} the claim requires. -/
theorem load_gmt_strip_bug :
    load_gmt_genesigdb
      (Annot.read_from_table
        [⟨"100", "GENE_A", "", "", "", ""⟩, ⟨"200", "GENE_B", "", "", "", ""⟩] "v")
      ["SIG1\tHuman-derived\tGENE_A\tGENE_B\n"]
      = .ok ([], ["SIG1"]) := rfl

/-- Claim C2 failing input: on the line "SIG1\tHuman\tGENE_A\tBADGENE\n" over a
table resolving GENE_A to "100" and the symbol "Human" to "7" (but not
BADGENE), the unresolvable gene symbol BADGENE is never looked up: the code
overwrote the last token with tokens[1].strip() = "Human", every lookup it
does perform succeeds, and the signature GS_SIG1 is emitted with genes
{"100", "7"} with an empty discard list, although the claim requires the
line to be discarded because BADGENE does not resolve. -/
theorem load_gmt_partial_bug :
    load_gmt_genesigdb
      (Annot.read_from_table
        [⟨"100", "GENE_A", "", "", "", ""⟩, ⟨"7", "Human", "", "", "", ""⟩] "v")
      ["SIG1\tHuman\tGENE_A\tBADGENE\n"]
      = .ok ([("GS_SIG1", ⟨[("100", 1), ("7", 1)], 0,
          "http://compbio.dfci.harvard.edu/genesigdb/publicationSearch.jsp?searchQuery=SIG1"⟩)],
          []) := rfl

/-! Lemmas about the scoring engine. -/

theorem selectVals_covered (row : List (String × ℚ)) (genes : List String)
    (h : ∀ g ∈ genes, (dictLookup row g).isSome) :
    selectVals row genes = .ok (genes.map (fun g => (dictLookup row g).getD 0)) := by
  induction genes with
  | nil => rfl
  | cons g gs ih =>
      have hg := h g (List.mem_cons_self g gs)
      cases hlu : dictLookup row g with
      | none => rw [hlu] at hg; simp at hg
      | some v =>
          have ih2 := ih (fun g2 hg2 => h g2 (List.mem_cons_of_mem g hg2))
          simp [selectVals, hlu, ih2]

theorem zipWith_mul_map (l : List (String × ℚ)) (f g : (String × ℚ) → ℚ) :
    List.zipWith (fun a b => a * b) (l.map f) (l.map g) = l.map (fun x => f x * g x) := by
  induction l with
  | nil => rfl
  | cons p ps ih => simp [ih]

theorem dotRow_covered (gs : GeneSignature) (row : List (String × ℚ))
    (h : coversRow row gs) :
    dotRow gs row = .ok ((gs.gset.map (fun p => (dictLookup row p.1).getD 0 * p.2)).sum) := by
  have hsel := selectVals_covered row gs.genes h
  simp only [dotRow, hsel]
  have hmap : gs.genes.map (fun g => (dictLookup row g).getD 0)
      = gs.gset.map (fun p => (dictLookup row p.1).getD 0) := by
    rw [GeneSignature.genes, List.map_map]
    rfl
  rw [hmap, zipWith_mul_map]

theorem meanRow_covered (genes : List String) (row : List (String × ℚ))
    (h : ∀ g ∈ genes, (dictLookup row g).isSome) :
    meanRow genes row
      = .ok ((genes.map (fun g => (dictLookup row g).getD 0)).sum / (genes.length : ℚ)) := by
  simp only [meanRow, selectVals_covered row genes h]

theorem mapRows_congr (f : List (String × ℚ) → Except Err ℚ) (g : List (String × ℚ) → ℚ)
    (rows : List (List (String × ℚ))) (h : ∀ r ∈ rows, f r = .ok (g r)) :
    mapRows f rows = .ok (rows.map g) := by
  induction rows with
  | nil => rfl
  | cons r rs ih =>
      have ih2 := ih (fun r2 hr2 => h r2 (List.mem_cons_of_mem r hr2))
      simp [mapRows, h r (List.mem_cons_self r rs), ih2]

theorem uniform_weighted_eq_mean (l : List (String × ℚ)) (f : String → ℚ) (c : ℚ)
    (hc : c ≠ 0) (hu : ∀ p ∈ l, p.2 = c) :
    (l.map (fun p => f p.1 * p.2)).sum / (l.map Prod.snd).sum
      = (l.map (fun p => f p.1)).sum / (l.length : ℚ) := by
  have h1 : l.map (fun p => f p.1 * p.2) = l.map (fun p => f p.1 * c) :=
    List.map_congr_left (fun p hp => by rw [hu p hp])
  have h2 : l.map Prod.snd = l.map (fun _ => c) :=
    List.map_congr_left (fun p hp => hu p hp)
  rw [h1, h2, List.map_const', List.sum_replicate, nsmul_eq_mul,
    List.sum_map_mul_right]
  exact mul_div_mul_right _ _ hc

theorem weighted_row_eq_mean_row (gs : GeneSignature) (row : List (String × ℚ)) (c : ℚ)
    (hc : c ≠ 0) (hu : ∀ p ∈ gs.gset, p.2 = c) :
    (gs.gset.map (fun p => (dictLookup row p.1).getD 0 * p.2)).sum / gsetSum gs
      = (gs.genes.map (fun g => (dictLookup row g).getD 0)).sum / (gs.genes.length : ℚ) := by
  rw [gsetSum, uniform_weighted_eq_mean gs.gset (fun g => (dictLookup row g).getD 0) c hc hu,
    GeneSignature.genes, List.map_map, List.length_map]
  rfl

/-- Claim C6 counterexample: a signature built with the scalar weight 0 has
uniform (all-equal) weights, yet on the one-sample input with expression 1
the weighted average (division by the zero weight sum) differs from the
unweighted average. -/
theorem gss_weighted_zero_uniform_ne :
    GeneSignature.make ["g"] (.scalar 0) none "" = .ok ⟨[("g", 0)], 0, ""⟩ ∧
    GSS.average ⟨[("g", 0)], 0, ""⟩ (.series [("g", 1)]) true = .ok (.one 0) ∧
    GSS.average ⟨[("g", 0)], 0, ""⟩ (.series [("g", 1)]) false = .ok (.one 1) ∧
    (Except.ok (Score.one 0) : Except Err Score) ≠ .ok (.one 1) := by
  refine ⟨rfl, ?_, ?_, ?_⟩
  · norm_num [GSS.average, dotRow, selectVals, dictLookup, gsetSum, GeneSignature.genes]
  · norm_num [GSS.average, meanRow, selectVals, dictLookup, GeneSignature.genes]
  · intro h
    injection h with h1
    injection h1 with h2
    norm_num at h2

/-- Claim C6 (amended): for uniform weights with a nonzero common value, the
weighted average equals the unweighted average on any covered input of
either shape; and in general the weighted score is the sum over the
signature's genes of expression times weight, divided by the sum of all
weights in the signature (per sample on a table). -/
theorem gss_weighted_props :
    (∀ (gs : GeneSignature) (X : ExprInput) (c : ℚ), c ≠ 0 → (∀ p ∈ gs.gset, p.2 = c) →
       covers X gs → GSS.average gs X true = GSS.average gs X false) ∧
    (∀ (gs : GeneSignature) (x : List (String × ℚ)), coversRow x gs →
       GSS.average gs (.series x) true
         = .ok (.one ((gs.gset.map (fun p => (dictLookup x p.1).getD 0 * p.2)).sum
             / gsetSum gs))) ∧
    (∀ (gs : GeneSignature) (rows : List (List (String × ℚ))),
       (∀ r ∈ rows, coversRow r gs) →
       GSS.average gs (.frame rows) true
         = .ok (.many (rows.map (fun r =>
             (gs.gset.map (fun p => (dictLookup r p.1).getD 0 * p.2)).sum / gsetSum gs)))) := by
  have hser : ∀ (gs : GeneSignature) (x : List (String × ℚ)), coversRow x gs →
      GSS.average gs (.series x) true
        = .ok (.one ((gs.gset.map (fun p => (dictLookup x p.1).getD 0 * p.2)).sum
            / gsetSum gs)) := by
    intro gs x h
    simp [GSS.average, dotRow_covered gs x h]
  have hfr : ∀ (gs : GeneSignature) (rows : List (List (String × ℚ))),
      (∀ r ∈ rows, coversRow r gs) →
      GSS.average gs (.frame rows) true
        = .ok (.many (rows.map (fun r =>
            (gs.gset.map (fun p => (dictLookup r p.1).getD 0 * p.2)).sum / gsetSum gs))) := by
    intro gs rows h
    have hm := mapRows_congr (dotRow gs)
      (fun r => (gs.gset.map (fun p => (dictLookup r p.1).getD 0 * p.2)).sum) rows
      (fun r hr => dotRow_covered gs r (h r hr))
    simp [GSS.average, hm]
  have hserU : ∀ (gs : GeneSignature) (x : List (String × ℚ)), coversRow x gs →
      GSS.average gs (.series x) false
        = .ok (.one ((gs.genes.map (fun g => (dictLookup x g).getD 0)).sum
            / (gs.genes.length : ℚ))) := by
    intro gs x h
    simp [GSS.average, meanRow_covered gs.genes x h]
  have hfrU : ∀ (gs : GeneSignature) (rows : List (List (String × ℚ))),
      (∀ r ∈ rows, coversRow r gs) →
      GSS.average gs (.frame rows) false
        = .ok (.many (rows.map (fun r =>
            (gs.genes.map (fun g => (dictLookup r g).getD 0)).sum
              / (gs.genes.length : ℚ)))) := by
    intro gs rows h
    have hm := mapRows_congr (meanRow gs.genes)
      (fun r => (gs.genes.map (fun g => (dictLookup r g).getD 0)).sum
        / (gs.genes.length : ℚ)) rows
      (fun r hr => meanRow_covered gs.genes r (h r hr))
    simp [GSS.average, hm]
  refine ⟨?_, hser, hfr⟩
  intro gs X c hc hu hcov
  cases X with
  | series x =>
      have hx : coversRow x gs := hcov x (by simp [rowsOf])
      rw [hser gs x hx, hserU gs x hx, weighted_row_eq_mean_row gs x c hc hu]
  | frame rows =>
      have hrows : ∀ r ∈ rows, coversRow r gs := fun r hr => hcov r (by simp [rowsOf, hr])
      rw [hfr gs rows hrows, hfrU gs rows hrows]
      have : (rows.map (fun r =>
          (gs.gset.map (fun p => (dictLookup r p.1).getD 0 * p.2)).sum / gsetSum gs))
          = rows.map (fun r =>
          (gs.genes.map (fun g => (dictLookup r g).getD 0)).sum / (gs.genes.length : ℚ)) :=
        List.map_congr_left (fun r _ => weighted_row_eq_mean_row gs r c hc hu)
      rw [this]

/-- Witness for gss_weighted_props on a two-gene signature with uniform
weight 2 over a single covered sample. -/
theorem gss_weighted_props_witness :
    GSS.average ⟨[("a", 2), ("b", 2)], 0, ""⟩ (.series [("a", 3), ("b", 5)]) true
      = GSS.average ⟨[("a", 2), ("b", 2)], 0, ""⟩ (.series [("a", 3), ("b", 5)]) false :=
  gss_weighted_props.1 ⟨[("a", 2), ("b", 2)], 0, ""⟩ (.series [("a", 3), ("b", 5)]) 2
    (by norm_num) (by decide) (by decide)

/-- Claim C7: the unweighted average of a non-empty signature over a single
sample whose expression is the constant v on every gene of the signature
is exactly v. -/
theorem gss_unweighted_constant (gs : GeneSignature) (x : List (String × ℚ)) (v : ℚ)
    (hne : gs.gset ≠ []) (hv : ∀ g ∈ gs.genes, dictLookup x g = some v) :
    GSS.average gs (.series x) false = .ok (.one v) := by
  have hcov : ∀ g ∈ gs.genes, (dictLookup x g).isSome := fun g hg => by rw [hv g hg]; rfl
  have hmean := meanRow_covered gs.genes x hcov
  have h1 : gs.genes.map (fun g => (dictLookup x g).getD 0) = gs.genes.map (fun _ => v) :=
    List.map_congr_left (fun g hg => by rw [hv g hg]; rfl)
  have hn : (gs.genes.length : ℚ) ≠ 0 := by
    rw [GeneSignature.genes, List.length_map]
    exact Nat.cast_ne_zero.mpr (fun hh => hne (List.length_eq_zero.mp hh))
  rw [h1, List.map_const', List.sum_replicate, nsmul_eq_mul,
    mul_div_cancel_left₀ v hn] at hmean
  simp [GSS.average, hmean]

/-- Witness for gss_unweighted_constant on a two-gene signature with
constant expression 4. -/
theorem gss_unweighted_constant_witness :
    GSS.average ⟨[("a", 1), ("b", 1)], 0, ""⟩ (.series [("a", 4), ("b", 4)]) false
      = .ok (.one 4) :=
  gss_unweighted_constant ⟨[("a", 1), ("b", 1)], 0, ""⟩ [("a", 4), ("b", 4)] 4
    (by decide) (by decide)

theorem buildDict_lookup_const {α : Type} (l : List (String × α)) (k : String) (v : α)
    (hall : ∀ p ∈ l, p.2 = v) (hk : k ∈ l.map Prod.fst) :
    dictLookup (buildDict l) k = some v := by
  rw [buildDict_lookup]
  have hs : (lastVal l k).isSome := (lastVal_isSome_iff l k).mpr hk
  obtain ⟨v2, hv2⟩ := Option.isSome_iff_exists.mp hs
  obtain ⟨p, hp, _, hpv⟩ := lastVal_eq_some_mem l k v2 hv2
  rw [hv2, ← hpv, hall p hp]

theorem buildDict_lookup_nodup {α : Type} (l : List (String × α)) (p : String × α)
    (hnd : (l.map Prod.fst).Nodup) (hp : p ∈ l) :
    dictLookup (buildDict l) p.1 = some p.2 := by
  rw [buildDict_lookup]
  exact lastVal_nodup l p hnd hp

/-- Claim C5: constructing a GeneSignature from a weights list whose length is
neither 1 nor the gene count is a construction-time ValueError (and those
are the only failing list lengths); a single-element weight list is
broadcast to every gene; a full-length weight list is applied positionally;
a scalar weight always succeeds and is broadcast to all genes with no
length check. -/
theorem genesignature_weight_shape (gid : List String) (w : List ℚ) (b : Option ℚ)
    (info : String) (c : ℚ) :
    (okB (GeneSignature.make gid (.wlist w) b info) = false ↔
       (w.length ≠ 1 ∧ w.length ≠ gid.length)) ∧
    (∀ sig, GeneSignature.make gid (.wlist w) b info = .ok sig → w.length = 1 →
       ∀ g ∈ gid, dictLookup sig.gset g = some (w.headD 0)) ∧
    (∀ sig, GeneSignature.make gid (.wlist w) b info = .ok sig → w.length = gid.length →
       gid.Nodup → ∀ p ∈ gid.zip w, dictLookup sig.gset p.1 = some p.2) ∧
    (okB (GeneSignature.make gid (.scalar c) b info) = true ∧
       ∀ sig, GeneSignature.make gid (.scalar c) b info = .ok sig →
         ∀ g ∈ gid, dictLookup sig.gset g = some c) := by
  refine ⟨?_, ?_, ?_, ?_, ?_⟩
  · by_cases h1 : w.length = 1
    · simp [GeneSignature.make, okB, h1]
    · by_cases h2 : w.length = gid.length
      · simp only [GeneSignature.make, if_neg h1, if_pos h2]
        simp [okB, h1, h2]
      · simp [GeneSignature.make, okB, h1, h2]
  · intro sig hmk hw1 g hg
    simp only [GeneSignature.make, if_pos hw1] at hmk
    injection hmk with h
    subst h
    apply buildDict_lookup_const
    · intro p hp
      exact List.eq_of_mem_replicate (List.of_mem_zip hp).2
    · rw [List.map_fst_zip _ _ (by rw [List.length_replicate])]
      exact hg
  · intro sig hmk hlen hnd p hp
    by_cases h1 : w.length = 1
    · obtain ⟨a, rfl⟩ := List.length_eq_one.mp h1
      have hg1 : gid.length = 1 := by rw [← hlen]; rfl
      obtain ⟨g0, rfl⟩ := List.length_eq_one.mp hg1
      simp only [List.zip, List.zipWith, List.mem_singleton] at hp
      subst hp
      simp only [GeneSignature.make, if_pos h1] at hmk
      injection hmk with h
      subst h
      simp [buildDict, dictInsert, dictLookup, List.zip]
    · simp only [GeneSignature.make, if_neg h1, if_pos hlen] at hmk
      injection hmk with h
      subst h
      apply buildDict_lookup_nodup
      · rw [List.map_fst_zip _ _ (le_of_eq hlen.symm)]
        exact hnd
      · exact hp
  · simp [GeneSignature.make, okB]
  · intro sig hmk g hg
    simp only [GeneSignature.make] at hmk
    injection hmk with h
    subst h
    apply buildDict_lookup_const
    · intro p hp
      exact List.eq_of_mem_replicate (List.of_mem_zip hp).2
    · rw [List.map_fst_zip _ _ (by rw [List.length_replicate])]
      exact hg

/-- Witness for genesignature_weight_shape: a length-3 weight list over two
genes fails; the single weight 5 broadcasts to both genes. -/
theorem genesignature_weight_shape_witness :
    okB (GeneSignature.make ["a", "bb"] (.wlist [2, 3, 4]) none "") = false ∧
    dictLookup (GeneSignature.mk [("a", 5), ("bb", 5)] 0 "").gset "bb" = some 5 := by
  constructor
  · exact (genesignature_weight_shape ["a", "bb"] [2, 3, 4] none "" 7).1.mpr (by decide)
  · exact (genesignature_weight_shape ["a", "bb"] [5] none "" 7).2.1
      ⟨[("a", 5), ("bb", 5)], 0, ""⟩ rfl rfl "bb" (by decide)

/-! Lemmas about the loaders. -/

theorem loadGmtAux_ok (a : Annot) (lines : List String)
    (hl : ∀ l ∈ lines, 2 ≤ (pySplit l '\t').length) :
    ∀ acc, okB (loadGmtAux a lines acc) = true := by
  induction lines with
  | nil => intro acc; rfl
  | cons line rest ih =>
      intro acc
      obtain ⟨db, disc⟩ := acc
      have h2 := hl line (List.mem_cons_self line rest)
      have ihr := ih (fun l hlm => hl l (List.mem_cons_of_mem line hlm))
      cases hg : (pySplit line '\t').get? 1 with
      | none =>
          rw [List.get?_eq_none] at hg
          omega
      | some t1 =>
          simp only [loadGmtAux, hg]
          by_cases hst : pyStartsWith t1 "Human" = true
          · rw [if_neg (fun hc => hc hst)]
            split
            · exact ihr _
            · exact ihr _
          · rw [if_pos hst]
            exact ihr _

theorem loadXmlAux_ok (entries : List Entry)
    (he : ∀ e ∈ entries,
       (dictLookup e "ORGANISM").isSome ∧ (dictLookup e "SYSTEMATIC_NAME").isSome ∧
       (dictLookup e "MEMBERS_EZID").isSome ∧ (dictLookup e "STANDARD_NAME").isSome ∧
       (dictLookup e "CATEGORY_CODE").isSome) :
    ∀ acc, okB (loadXmlAux entries acc) = true := by
  induction entries with
  | nil => intro acc; rfl
  | cons e rest ih =>
      intro acc
      obtain ⟨db, disc⟩ := acc
      obtain ⟨h1, h2, h3, h4, h5⟩ := he e (List.mem_cons_self e rest)
      have ihr := ih (fun e2 he2 => he e2 (List.mem_cons_of_mem e he2))
      obtain ⟨org, horg⟩ := Option.isSome_iff_exists.mp h1
      obtain ⟨sn, hsn⟩ := Option.isSome_iff_exists.mp h2
      obtain ⟨members, hmem⟩ := Option.isSome_iff_exists.mp h3
      obtain ⟨std, hstd⟩ := Option.isSome_iff_exists.mp h4
      obtain ⟨cat, hcat⟩ := Option.isSome_iff_exists.mp h5
      simp only [loadXmlAux, horg, hsn, hmem, hstd, hcat]
      by_cases hne : org = "Homo sapiens"
      · rw [if_neg (fun hc => hc hne)]
        exact ihr _
      · rw [if_pos hne]
        exact ihr _

/-- Claim C3 counterexample: a delimited line with a single field (whose signature
ID "SIG1" is perfectly resolvable) makes load_gmt_genesigdb raise an index
error instead of discarding the entry, and an XML entry lacking the ORGANISM
attribute (but carrying its systematic name) makes load_xml_msigdb raise a
key error instead of discarding the entry. -/
theorem loaders_malformed_raise :
    load_gmt_genesigdb (Annot.read_from_table [] "v") ["SIG1"] = .error .indexError ∧
    load_xml_msigdb [[("SYSTEMATIC_NAME", "M1")]] = .error (.keyError "ORGANISM") :=
  ⟨rfl, rfl⟩

/-- Claim C3 (amended): entries that fail the organism filter or symbol resolution
degrade to the discard list and processing continues, and neither loader
raises when every delimited line has at least two tab-separated fields and
every markup entry carries the five accessed attributes; but outside that
well-formedness the loaders can raise on a single malformed entry. -/
theorem loaders_wellformed_no_raise (a : Annot) (lines : List String)
    (hl : ∀ l ∈ lines, 2 ≤ (pySplit l '\t').length)
    (entries : List Entry)
    (he : ∀ e ∈ entries,
       (dictLookup e "ORGANISM").isSome ∧ (dictLookup e "SYSTEMATIC_NAME").isSome ∧
       (dictLookup e "MEMBERS_EZID").isSome ∧ (dictLookup e "STANDARD_NAME").isSome ∧
       (dictLookup e "CATEGORY_CODE").isSome) :
    okB (load_gmt_genesigdb a lines) = true ∧ okB (load_xml_msigdb entries) = true :=
  ⟨loadGmtAux_ok a lines hl ([], []), loadXmlAux_ok entries he ([], [])⟩

/-- Witness for loaders_wellformed_no_raise on one well-formed line (which
the organism filter discards without raising) and one complete human XML
entry. -/
theorem loaders_wellformed_no_raise_witness :
    okB (load_gmt_genesigdb (Annot.read_from_table [] "v") ["S1\tMouse line\tG1"]) = true ∧
    okB (load_xml_msigdb [[("ORGANISM", "Homo sapiens"), ("SYSTEMATIC_NAME", "M2"),
      ("MEMBERS_EZID", "1,2"), ("STANDARD_NAME", "NM"), ("CATEGORY_CODE", "C1")]]) = true :=
  loaders_wellformed_no_raise (Annot.read_from_table [] "v") ["S1\tMouse line\tG1"]
    (by decide)
    [[("ORGANISM", "Homo sapiens"), ("SYSTEMATIC_NAME", "M2"),
      ("MEMBERS_EZID", "1,2"), ("STANDARD_NAME", "NM"), ("CATEGORY_CODE", "C1")]]
    (by decide)

theorem loadXmlAux_disc_mono (es : List Entry) :
    ∀ db0 disc0 db disc, loadXmlAux es (db0, disc0) = .ok (db, disc) →
      ∃ t, disc = disc0 ++ t := by
  induction es with
  | nil =>
      intro db0 disc0 db disc h
      injection h with h2
      have hd : disc0 = disc := congrArg Prod.snd h2
      exact ⟨[], by rw [← hd, List.append_nil]⟩
  | cons e rest ih =>
      intro db0 disc0 db disc h
      simp only [loadXmlAux] at h
      split at h
      · exact Except.noConfusion h
      · split at h
        · split at h
          · exact Except.noConfusion h
          · obtain ⟨t, ht⟩ := ih _ _ _ _ h
            exact ⟨_, by rw [ht, List.append_assoc]⟩
        · split at h
          · exact Except.noConfusion h
          · split at h
            · exact Except.noConfusion h
            · split at h
              · exact Except.noConfusion h
              · split at h
                · exact Except.noConfusion h
                · exact ih _ _ _ _ h

theorem loadXmlAux_discards (es : List Entry) :
    ∀ db0 disc0 db disc, loadXmlAux es (db0, disc0) = .ok (db, disc) →
    ∀ e ∈ es, ∀ org sn, dictLookup e "ORGANISM" = some org → org ≠ "Homo sapiens" →
      dictLookup e "SYSTEMATIC_NAME" = some sn → sn ∈ disc := by
  induction es with
  | nil =>
      intro db0 disc0 db disc h e he
      simp at he
  | cons e2 rest ih =>
      intro db0 disc0 db disc h e he org sn horg hne hsn
      rcases List.mem_cons.mp he with rfl | hmem
      · simp only [loadXmlAux, horg, hsn] at h
        rw [if_pos hne] at h
        obtain ⟨t, ht⟩ := loadXmlAux_disc_mono rest _ _ _ _ h
        rw [ht]
        simp
      · simp only [loadXmlAux] at h
        split at h
        · exact Except.noConfusion h
        · split at h
          · split at h
            · exact Except.noConfusion h
            · exact ih _ _ _ _ h e hmem org sn horg hne hsn
          · split at h
            · exact Except.noConfusion h
            · split at h
              · exact Except.noConfusion h
              · split at h
                · exact Except.noConfusion h
                · split at h
                  · exact Except.noConfusion h
                  · exact ih _ _ _ _ h e hmem org sn horg hne hsn

theorem loadXmlAux_key_absent (es : List Entry) (K : String) :
    ∀ db0 disc0 db disc, loadXmlAux es (db0, disc0) = .ok (db, disc) →
      dictLookup db0 K = none →
      (∀ e ∈ es, dictLookup e "ORGANISM" = some "Homo sapiens" → xmlKey e ≠ some K) →
      dictLookup db K = none := by
  induction es with
  | nil =>
      intro db0 disc0 db disc h h0 _
      injection h with h2
      have hdb : db0 = db := congrArg Prod.fst h2
      rw [← hdb]
      exact h0
  | cons e rest ih =>
      intro db0 disc0 db disc h h0 hkeys
      have hkeys2 : ∀ e2 ∈ rest, dictLookup e2 "ORGANISM" = some "Homo sapiens" →
          xmlKey e2 ≠ some K := fun e2 he2 => hkeys e2 (List.mem_cons_of_mem e he2)
      simp only [loadXmlAux] at h
      split at h
      · exact Except.noConfusion h
      · rename_i org horg
        split at h
        · split at h
          · exact Except.noConfusion h
          · exact ih _ _ _ _ h h0 hkeys2
        · rename_i hnh
          have horgH : org = "Homo sapiens" := not_not.mp hnh
          split at h
          · exact Except.noConfusion h
          · rename_i members hmem
            split at h
            · exact Except.noConfusion h
            · rename_i std hstd
              split at h
              · exact Except.noConfusion h
              · rename_i cat hcat
                split at h
                · exact Except.noConfusion h
                · rename_i sn hsn
                  have hkey : (cat ++ "_" ++ sn) ≠ K := by
                    have hx := hkeys e (List.mem_cons_self e rest)
                      (by rw [horg, horgH])
                    simp only [xmlKey, hcat, hsn] at hx
                    intro hh
                    exact hx (by rw [hh])
                  refine ih _ _ _ _ h ?_ hkeys2
                  rw [dictLookup_dictInsert_ne _ _ _ _ (fun hh => hkey hh.symm)]
                  exact h0

/-- Claim C8: an XML entry whose ORGANISM attribute is some value other than
"Homo sapiens" has its systematic name recorded in the discard list, and
(as long as no human entry of the file produces the same key) the key
category_code_systematic_name is absent from the output mapping. -/
theorem load_xml_organism_filter (entries : List Entry) (e : Entry) (he : e ∈ entries)
    (org : String) (horg : dictLookup e "ORGANISM" = some org)
    (hne : org ≠ "Homo sapiens")
    (sn : String) (hsn : dictLookup e "SYSTEMATIC_NAME" = some sn)
    (cat : String) (hcat : dictLookup e "CATEGORY_CODE" = some cat)
    (db : SigDB) (disc : List String)
    (hok : load_xml_msigdb entries = .ok (db, disc))
    (hkey : ∀ e2 ∈ entries, dictLookup e2 "ORGANISM" = some "Homo sapiens" →
       xmlKey e2 ≠ some (cat ++ "_" ++ sn)) :
    sn ∈ disc ∧ dictLookup db (cat ++ "_" ++ sn) = none := by
  rw [load_xml_msigdb] at hok
  exact ⟨loadXmlAux_discards entries _ _ _ _ hok e he org sn horg hne hsn,
    loadXmlAux_key_absent entries (cat ++ "_" ++ sn) _ _ _ _ hok rfl hkey⟩

/-- Witness for load_xml_organism_filter on a one-entry mouse database. -/
theorem load_xml_organism_filter_witness :
    "M1" ∈ ["M1"] ∧ dictLookup ([] : SigDB) "C5_M1" = none :=
  load_xml_organism_filter
    [[("ORGANISM", "Mus musculus"), ("SYSTEMATIC_NAME", "M1"), ("CATEGORY_CODE", "C5")]]
    [("ORGANISM", "Mus musculus"), ("SYSTEMATIC_NAME", "M1"), ("CATEGORY_CODE", "C5")]
    (by decide) "Mus musculus" rfl (by decide) "M1" rfl "C5" rfl [] ["M1"] rfl
    (by decide)
